import Mathlib

/-!
Shallow embedding of `sitemap.py`, a single-file sitemap generator:
walk a directory tree, keep `.html` files whose URL does not contain
`/user/` (case-insensitive), resolve a last-modified timestamp per file
through a four-strategy fallback chain, paginate entries into sitemap
chunks, and emit a sitemap index.

Python strings are modelled through their character lists; `str.lower`,
`\d` and `\s` are modelled on their ASCII behaviour (the repository's
patterns and examples are ASCII).  `datetime.now()` is an effect and is
passed explicitly (for the index generator, as a per-call clock, since
the source calls `now()` once per loop iteration).
-/

/-- Python `needle == hay[:len(needle)]` on character lists. -/
def isPrefixList : List Char → List Char → Bool
  | [], _ => true
  | _ :: _, [] => false
  | a :: as, b :: bs => a = b && isPrefixList as bs

/-- Python `needle in hay` (substring containment) on character lists. -/
def occursList (needle : List Char) : List Char → Bool
  | [] => isPrefixList needle []
  | c :: cs => isPrefixList needle (c :: cs) || occursList needle cs

/-- Python `needle in hay` on strings. -/
def occursSub (hay needle : String) : Bool :=
  occursList needle.data hay.data

/-- Python `s.lower()` (ASCII letters). -/
def lowerStr (s : String) : String :=
  String.mk (s.data.map Char.toLower)

/-- Python `s.startswith(t)`. -/
def startsWithStr (s t : String) : Bool :=
  isPrefixList t.data s.data

/-- Python `s.endswith(t)`. -/
def endsWithStr (s t : String) : Bool :=
  isPrefixList t.data.reverse s.data.reverse

/-- Python `s.rstrip("/")`: remove every trailing slash. -/
def rstripSlashes (s : String) : String :=
  String.mk (s.data.reverse.dropWhile (fun c => c = '/')).reverse

/-- The apostrophe character, as used by the creation-date pattern. -/
def quoteChar : Char := Char.ofNat 39

/-- A `datetime.datetime` value (naive, as produced by the script). -/
structure DateTime where
  year : Nat
  month : Nat
  day : Nat
  hour : Nat
  minute : Nat
  second : Nat
  microsecond : Nat
deriving DecidableEq

/-- Zero-pad to two digits, as `%02d` inside `isoformat`. -/
def pad2 (n : Nat) : String :=
  if n < 10 then "0" ++ Nat.repr n else Nat.repr n

/-- Zero-pad to four digits, as `%04d` inside `isoformat`. -/
def pad4 (n : Nat) : String :=
  if n < 10 then "000" ++ Nat.repr n
  else if n < 100 then "00" ++ Nat.repr n
  else if n < 1000 then "0" ++ Nat.repr n
  else Nat.repr n

/-- Python `dt.replace(microsecond=0).isoformat()`: the microsecond field
is discarded, so no fractional part is printed. -/
def isoNoMicro (dt : DateTime) : String :=
  pad4 dt.year ++ "-" ++ pad2 dt.month ++ "-" ++ pad2 dt.day ++ "T" ++
    pad2 dt.hour ++ ":" ++ pad2 dt.minute ++ ":" ++ pad2 dt.second

/-- Gregorian leap-year rule used by `datetime`. -/
def isLeapYear (y : Nat) : Bool :=
  (y % 4 = 0 && y % 100 ≠ 0) || y % 400 = 0

/-- Number of days of month `m` of year `y` (months are 1-based). -/
def daysInMonth (y m : Nat) : Nat :=
  if m = 2 then (if isLeapYear y then 29 else 28)
  else if m = 4 ∨ m = 6 ∨ m = 9 ∨ m = 11 then 30
  else 31

/-- Calendar validity enforced by the `datetime` constructor
(`MINYEAR = 1`; months 1–12; days 1–`daysInMonth`). -/
def validYMD (y m d : Nat) : Bool :=
  1 ≤ y && y ≤ 9999 && 1 ≤ m && m ≤ 12 && 1 ≤ d && d ≤ daysInMonth y m

/-- Value of a list of decimal digit characters, as Python `int`. -/
def digitsToNat (ds : List Char) : Nat :=
  ds.foldl (fun acc c => acc * 10 + (c.toNat - 48)) 0

/-- Python `datetime.strptime(s, "%Y-%m-%d")` in its canonical
fixed-width form: ten characters `YYYY-MM-DD`, calendar-checked; the
parsed time-of-day fields are zero.  Returns `none` on a `ValueError`. -/
def strptimeYmd (s : String) : Option DateTime :=
  match s.data with
  | [y1, y2, y3, y4, s1, m1, m2, s2, d1, d2] =>
      if y1.isDigit && y2.isDigit && y3.isDigit && y4.isDigit &&
         s1 = '-' && s2 = '-' &&
         m1.isDigit && m2.isDigit && d1.isDigit && d2.isDigit then
        let y := digitsToNat [y1, y2, y3, y4]
        let m := digitsToNat [m1, m2]
        let d := digitsToNat [d1, d2]
        if validYMD y m d then some ⟨y, m, d, 0, 0, 0, 0⟩ else none
      else none
  | _ => none

/-- Python `datetime.strptime(s, "%Y-%m-%d %H:%M:%S")` in its canonical
fixed-width form: `YYYY-MM-DD HH:MM:SS`, calendar- and clock-checked.
Returns `none` on a `ValueError`. -/
def strptimeYmdHMS (s : String) : Option DateTime :=
  match s.data with
  | [y1, y2, y3, y4, s1, m1, m2, s2, d1, d2, sp,
     h1, h2, c1, n1, n2, c2, e1, e2] =>
      if y1.isDigit && y2.isDigit && y3.isDigit && y4.isDigit &&
         s1 = '-' && s2 = '-' && sp = ' ' && c1 = ':' && c2 = ':' &&
         m1.isDigit && m2.isDigit && d1.isDigit && d2.isDigit &&
         h1.isDigit && h2.isDigit && n1.isDigit && n2.isDigit &&
         e1.isDigit && e2.isDigit then
        let y := digitsToNat [y1, y2, y3, y4]
        let m := digitsToNat [m1, m2]
        let d := digitsToNat [d1, d2]
        let hh := digitsToNat [h1, h2]
        let nn := digitsToNat [n1, n2]
        let ss := digitsToNat [e1, e2]
        if validYMD y m d && hh ≤ 23 && nn ≤ 59 && ss ≤ 59 then
          some ⟨y, m, d, hh, nn, ss, 0⟩
        else none
      else none
  | _ => none

/-- Consume exactly `n` decimal digits; return them and the rest. -/
def takeDigits : Nat → List Char → Option (List Char × List Char)
  | 0, cs => some ([], cs)
  | _ + 1, [] => none
  | n + 1, c :: cs =>
      if c.isDigit then
        match takeDigits n cs with
        | some (ds, rest) => some (c :: ds, rest)
        | none => none
      else none

/-- Consume one expected character. -/
def expectChar (target : Char) : List Char → Option (List Char)
  | [] => none
  | c :: cs => if c = target then some cs else none

/-- Consume one expected character, case-insensitively (`re.IGNORECASE`). -/
def expectCharCI (target : Char) : List Char → Option (List Char)
  | [] => none
  | c :: cs => if c.toLower = target then some cs else none

/-- Consume an expected literal (given lowercased), case-insensitively. -/
def expectStrCI : List Char → List Char → Option (List Char)
  | [], cs => some cs
  | _ :: _, [] => none
  | t :: ts, c :: cs => if c.toLower = t then expectStrCI ts cs else none

/-- Skip a maximal run of whitespace (greedy `\s*`). -/
def skipMaxWs : List Char → List Char
  | [] => []
  | c :: cs => if c.isWhitespace then skipMaxWs cs else c :: cs

/-- Greedy `\s+`: at least one whitespace character, maximal run.
Backtracking never helps here because in both regexes the character
after `\s+`/`\s*` is itself non-whitespace. -/
def wsPlus : List Char → Option (List Char)
  | [] => none
  | c :: cs => if c.isWhitespace then some (skipMaxWs cs) else none

/-- One anchored attempt of `(\d{4}-\d{2}-\d{2})\s+by` (IGNORECASE) at the
head of the list; on success, the captured group. -/
def matchContentDateAt (cs : List Char) : Option String := do
  let (g1, r1) ← takeDigits 4 cs
  let r2 ← expectChar '-' r1
  let (g2, r3) ← takeDigits 2 r2
  let r4 ← expectChar '-' r3
  let (g3, r5) ← takeDigits 2 r4
  let r6 ← wsPlus r5
  let r7 ← expectCharCI 'b' r6
  let _ ← expectCharCI 'y' r7
  pure (String.mk (g1 ++ ['-'] ++ g2 ++ ['-'] ++ g3))

/-- `content_date_regex.search`: leftmost match of
`(\d{4}-\d{2}-\d{2})\s+by`, returning the captured date digits. -/
def searchContentDate : List Char → Option String
  | [] => matchContentDateAt []
  | c :: cs =>
      match matchContentDateAt (c :: cs) with
      | some r => some r
      | none => searchContentDate cs

/-- Consume characters up to the next apostrophe (greedy `[^']*`), then
the apostrophe itself; `none` when no apostrophe follows. -/
def scanToQuote : List Char → Option (List Char × List Char)
  | [] => none
  | c :: cs =>
      if c = quoteChar then some ([], cs)
      else
        match scanToQuote cs with
        | some (run, rest) => some (c :: run, rest)
        | none => none

/-- The letters of the literal `creationDate`, lowercased. -/
def creationKey : List Char :=
  ['c', 'r', 'e', 'a', 't', 'i', 'o', 'n', 'd', 'a', 't', 'e']

/-- One anchored attempt of `'creationDate'\s*=>\s*'([^']+)'`
(IGNORECASE) at the head of the list; on success, the captured value. -/
def matchCreationAt (cs : List Char) : Option String := do
  let r1 ← expectChar quoteChar cs
  let r2 ← expectStrCI creationKey r1
  let r3 ← expectChar quoteChar r2
  let r4 := skipMaxWs r3
  let r5 ← expectChar '=' r4
  let r6 ← expectChar '>' r5
  let r7 := skipMaxWs r6
  let r8 ← expectChar quoteChar r7
  let (run, _) ← scanToQuote r8
  if run = [] then none else pure (String.mk run)

/-- `creation_date_regex.search`: leftmost match of
`'creationDate'\s*=>\s*'([^']+)'`, returning the captured value. -/
def searchCreationDate : List Char → Option String
  | [] => matchCreationAt []
  | c :: cs =>
      match matchCreationAt (c :: cs) with
      | some r => some r
      | none => searchCreationDate cs

/-- Outcome of `open(file_path).read()`: the decoded text (undecodable
bytes already dropped by `errors="ignore"`), or an I/O error. -/
inductive ReadResult where
  | ok (content : String) : ReadResult
  | error : ReadResult
deriving DecidableEq

/-- `extract_date_from_content`: on a read error, print a warning and
return `None`; otherwise search for the content-date pattern, parse the
capture with `%Y-%m-%d`, zero the time of day, and render it.  A
`ValueError` from `strptime` yields `None`. -/
def extract_date_from_content (readResult : ReadResult) : Option String :=
  match readResult with
  | ReadResult.error => none
  | ReadResult.ok content =>
      match searchContentDate content.data with
      | none => none
      | some ds =>
          match strptimeYmd ds with
          | none => none
          | some dt => some (isoNoMicro ⟨dt.year, dt.month, dt.day, 0, 0, 0, 0⟩)

/-- `extract_creation_date`: on a read error, print a warning and return
`None`; otherwise search for the creation-date pattern, parse the capture
with `%Y-%m-%d %H:%M:%S`, and render it without microseconds.  A
`ValueError` from `strptime` yields `None`. -/
def extract_creation_date (readResult : ReadResult) : Option String :=
  match readResult with
  | ReadResult.error => none
  | ReadResult.ok content =>
      match searchCreationDate content.data with
      | none => none
      | some ds =>
          match strptimeYmdHMS ds with
          | none => none
          | some dt => some (isoNoMicro dt)

/-- `get_file_last_modified`: the filesystem mtime, microseconds
dropped (`replace(microsecond=0).isoformat()`). -/
def get_file_last_modified (mtime : DateTime) : String :=
  isoNoMicro mtime

/-- The per-file date-resolution chain of `main` (lines 157–174):
index-name override, then content date, then creation date, then the
filesystem mtime.  `now` is the wall-clock value of `datetime.now()` at
this file's processing; `readResult` the outcome of reading the file. -/
def resolveLastmod (now : DateTime) (fileName : String)
    (readResult : ReadResult) (mtime : DateTime) : String :=
  if startsWithStr (lowerStr fileName) "index" then isoNoMicro now
  else
    match extract_date_from_content readResult with
    | some s => s
    | none =>
        match extract_creation_date readResult with
        | some s => s
        | none => get_file_last_modified mtime

/-- One file as seen by the walk: the directory components of its path
relative to the scan root, its base name, the outcome of reading it, and
its filesystem mtime. -/
structure SFile where
  dirs : List String
  name : String
  content : ReadResult
  mtime : DateTime
deriving DecidableEq

/-- A directory: its regular files (name, read outcome, mtime) and its
subdirectories, both in the traversal order the OS reports. -/
inductive DirTree where
  | node : List (String × ReadResult × DateTime) → List (String × DirTree) → DirTree

mutual

/-- `os.walk(root)` in top-down order, flattened to the files `main`
iterates over: a directory's own files come before those of its
subdirectories, subdirectories in reported order. -/
def walkFiles : DirTree → List SFile
  | DirTree.node files subdirs =>
      files.map (fun fi => { dirs := [], name := fi.1, content := fi.2.1, mtime := fi.2.2 }) ++
        walkSubdirs subdirs

/-- Walk a list of named subdirectories, prefixing each directory name
onto the relative paths of the files found beneath it. -/
def walkSubdirs : List (String × DirTree) → List SFile
  | [] => []
  | (d, t) :: rest =>
      (walkFiles t).map (fun f => { f with dirs := d :: f.dirs }) ++ walkSubdirs rest

end

/-- The relative URL path of a file: `os.path.relpath` from the root
followed by `.replace(os.sep, "/")`, i.e. the path components joined
by forward slashes. -/
def relUrl (f : SFile) : String :=
  String.intercalate "/" (f.dirs ++ [f.name])

/-- `generate_url`: strip one trailing slash from the domain if present,
then append a single slash and the relative URL path. -/
def generate_url (domain : String) (rel : String) : String :=
  (if endsWithStr domain "/" then String.mk domain.data.dropLast else domain) ++
    "/" ++ rel

/-- One sitemap entry as built by `main`: the dictionary with keys
`loc` and (possibly) `lastmod`. -/
structure UrlEntry where
  loc : String
  lastmod : Option String
deriving DecidableEq

/-- The body of `main`'s walk loop for one file: keep it only when its
name ends in `.html` (case-insensitive) and its URL does not contain
`/user/` (case-insensitive); resolve its lastmod through the chain. -/
def processFile (now : DateTime) (domain : String) (f : SFile) : Option UrlEntry :=
  if endsWithStr (lowerStr f.name) ".html" then
    let url := generate_url domain (relUrl f)
    if occursSub (lowerStr url) "/user/" then none
    else some { loc := url, lastmod := some (resolveLastmod now f.name f.content f.mtime) }
  else none

/-- The `url_entries` list accumulated by `main` over the whole walk.
`now` abstracts the per-file `datetime.now()` calls (its value is only
read for `index*`-named files and never affects filtering). -/
def mainEntries (now : DateTime) (domain : String) (tree : DirTree) : List UrlEntry :=
  (walkFiles tree).filterMap (processFile now domain)

/-- One `url` element of an emitted sitemap document: a `loc` child and
at most one `lastmod` child. -/
structure UrlNode where
  loc : String
  lastmod : Option String
deriving DecidableEq

/-- Python truthiness of `entry.get("lastmod")`: a missing key or an
empty string both count as absent. -/
def truthy : Option String → Option String
  | none => none
  | some s => if s = "" then none else some s

/-- `generate_sitemap`, restricted to the document structure it builds:
one `url` element per entry, with a `lastmod` child exactly when
`entry.get("lastmod")` is truthy. -/
def generate_sitemap (entries : List UrlEntry) : List UrlNode :=
  entries.map (fun e => { loc := e.loc, lastmod := truthy e.lastmod })

/-- `num_sitemaps = total // max_url + (1 if total % max_url != 0 else 0)`. -/
def num_sitemaps (total maxUrl : Nat) : Nat :=
  total / maxUrl + (if total % maxUrl ≠ 0 then 1 else 0)

/-- The pagination of `main`: chunk `i` (0-based) is the slice
`entries[i*max_url : i*max_url + max_url]`. -/
def chunks {α : Type} (l : List α) (maxUrl : Nat) : List (List α) :=
  (List.range (num_sitemaps l.length maxUrl)).map
    (fun i => (l.drop (i * maxUrl)).take maxUrl)

/-- The chunk filename `f"sitemap_{i+1}.xml"` for 0-based loop index `i`. -/
def sitemap_filename (i : Nat) : String :=
  "sitemap_" ++ Nat.repr (i + 1) ++ ".xml"

/-- The `sitemap_filenames` list accumulated by `main`'s output loop. -/
def sitemap_filenames (total maxUrl : Nat) : List String :=
  (List.range (num_sitemaps total maxUrl)).map sitemap_filename

/-- One `sitemap` element of the emitted index document. -/
structure IndexEntry where
  loc : String
  lastmod : String
deriving DecidableEq

/-- The location written for one index entry:
`f"{domain.rstrip('/')}/{output_dir.rstrip('/')}/{sitemap}"`. -/
def indexLoc (domain outdir fname : String) : String :=
  rstripSlashes domain ++ "/" ++ rstripSlashes outdir ++ "/" ++ fname

/-- `generate_sitemap_index`, restricted to the document structure it
builds.  `datetime.now()` is called afresh inside the loop for every
entry, so the clock is an oracle indexed by the loop iteration. -/
def generate_sitemap_index (clock : Nat → DateTime) (filenames : List String)
    (domain outdir : String) : List IndexEntry :=
  filenames.enum.map
    (fun p => { loc := indexLoc domain outdir p.2, lastmod := isoNoMicro (clock p.1) })

/-- Whether the location `rstrip(domain) ++ "/" ++ rstrip(outdir) ++ "/"
++ fname` has a double slash at either of its two join points: a join
slash is doubled exactly when the piece before it ends in a slash, the
piece after it starts with one, or the stripped output directory is
empty (which makes the two join slashes adjacent). -/
def doubleSlashAtJoins (domain outdir fname : String) : Bool :=
  endsWithStr (rstripSlashes domain) "/" ||
    startsWithStr (rstripSlashes outdir) "/" ||
    (rstripSlashes outdir).data = [] ||
    endsWithStr (rstripSlashes outdir) "/" ||
    startsWithStr fname "/"

/-- A clock whose reported second advances on every call, as can happen
when the index-generation loop crosses a second boundary. -/
def tickingClock : Nat → DateTime :=
  fun i => ⟨2024, 1, 1, 0, 0, i, 0⟩

/-- A clock frozen within one second for the whole run. -/
def frozenClock : Nat → DateTime :=
  fun _ => ⟨2024, 1, 1, 0, 0, 0, 0⟩

/-- A two-level example site: root directory with subdirectory `a`
holding `b.html`. -/
def exampleTree : DirTree :=
  DirTree.node [] [("a", DirTree.node
    [("b.html", ReadResult.ok "", ⟨2020, 5, 6, 7, 8, 9, 0⟩)] [])]

/-- A tree whose only file lies under a `User` directory, so its URL
contains `/User/` (case-insensitively `/user/`). -/
def userTree : DirTree :=
  DirTree.node [] [("User", DirTree.node
    [("Profile.html", ReadResult.ok "", ⟨2020, 5, 6, 7, 8, 9, 0⟩)] [])]

theorem num_sitemaps_eq_ceil (n m : Nat) (hm : 0 < m) :
    num_sitemaps n m = (n + m - 1) / m := by
  have hd := Nat.div_add_mod n m
  have hr : n % m < m := Nat.mod_lt _ hm
  unfold num_sitemaps
  by_cases h : n % m = 0
  · have h1 : n + m - 1 = m * (n / m) + (m - 1) := by omega
    rw [h1, Nat.mul_add_div hm, Nat.div_eq_of_lt (show m - 1 < m by omega)]
    simp [h]
  · have h1 : n + m - 1 = m * (n / m) + (n % m - 1) + m := by omega
    rw [h1, Nat.add_div_right _ hm, Nat.mul_add_div hm,
      Nat.div_eq_of_lt (show n % m - 1 < m by omega)]
    simp [h]

theorem ceil_div_succ (n m : Nat) (hm : 0 < m) (hn : 0 < n) :
    (n + m - 1) / m = (n - m + m - 1) / m + 1 := by
  by_cases h : m ≤ n
  · have h1 : n + m - 1 = (n - m + m - 1) + m := by omega
    rw [h1, Nat.add_div_right _ hm]
  · have h0 : n - m + m - 1 = m - 1 := by omega
    have h1 : n + m - 1 = (n - 1) + m := by omega
    rw [h0, h1, Nat.add_div_right _ hm, Nat.div_eq_of_lt (show n - 1 < m by omega),
      Nat.div_eq_of_lt (show m - 1 < m by omega)]

theorem chunks_nil {α : Type} (m : Nat) : chunks ([] : List α) m = [] := by
  simp [chunks, num_sitemaps]

theorem chunks_length {α : Type} (l : List α) (m : Nat) :
    (chunks l m).length = num_sitemaps l.length m := by
  simp [chunks]

theorem chunks_cons {α : Type} (l : List α) (m : Nat) (hm : 0 < m) (hl : l ≠ []) :
    chunks l m = l.take m :: chunks (l.drop m) m := by
  have hlen : 0 < l.length := List.length_pos.mpr hl
  have hnum : num_sitemaps l.length m = num_sitemaps (l.drop m).length m + 1 := by
    rw [List.length_drop, num_sitemaps_eq_ceil _ _ hm, num_sitemaps_eq_ceil _ _ hm]
    exact ceil_div_succ _ _ hm hlen
  unfold chunks
  rw [hnum, List.range_succ_eq_map, List.map_cons, List.map_map]
  congr 1
  · simp
  · apply List.map_congr_left
    intro i _
    show (l.drop (i.succ * m)).take m = ((l.drop m).drop (i * m)).take m
    rw [List.drop_drop, Nat.succ_mul, Nat.add_comm (i * m) m]

theorem chunks_flatten {α : Type} (m : Nat) (hm : 0 < m) (l : List α) :
    (chunks l m).flatten = l := by
  have H : ∀ (n : Nat) (l : List α), l.length ≤ n → (chunks l m).flatten = l := by
    intro n
    induction n with
    | zero =>
        intro l hl
        have hnil : l = [] := List.eq_nil_of_length_eq_zero (by omega)
        subst hnil
        rw [chunks_nil]
        rfl
    | succ n ih =>
        intro l hl
        rcases eq_or_ne l [] with rfl | hne
        · rw [chunks_nil]
          rfl
        · have hlen := List.length_pos.mpr hne
          rw [chunks_cons l m hm hne]
          show l.take m ++ (chunks (l.drop m) m).flatten = l
          rw [ih (l.drop m) (by rw [List.length_drop]; omega), List.take_append_drop]
  exact H l.length l (Nat.le_refl _)

theorem chunks_size_le {α : Type} (l : List α) (m : Nat) :
    ∀ c ∈ chunks l m, c.length ≤ m := by
  intro c hc
  unfold chunks at hc
  rcases List.mem_map.mp hc with ⟨i, _, rfl⟩
  rw [List.length_take]
  exact min_le_left _ _

/-- C1: for every entry list of length `N ≥ 0` and every maximum chunk
size `M ≥ 1`, the paginator produces exactly `⌈N/M⌉` sitemap chunks
(zero chunks when `N = 0`), each chunk holding at most `M` entries, the
chunks concatenating back to the original ordered list exactly, and the
`k`-th chunk in generation order is assigned the filename
`sitemap_<k>.xml` with `k` 1-based. -/
theorem c1_pagination {α : Type} (entries : List α) (maxUrl : Nat) (hm : 1 ≤ maxUrl) :
    (chunks entries maxUrl).length = (entries.length + maxUrl - 1) / maxUrl ∧
    (entries = [] → chunks entries maxUrl = []) ∧
    (∀ c ∈ chunks entries maxUrl, c.length ≤ maxUrl) ∧
    (chunks entries maxUrl).flatten = entries ∧
    (sitemap_filenames entries.length maxUrl).length = (chunks entries maxUrl).length ∧
    (∀ i, i < (chunks entries maxUrl).length →
      (sitemap_filenames entries.length maxUrl)[i]? =
        some ("sitemap_" ++ Nat.repr (i + 1) ++ ".xml")) := by
  refine ⟨?_, ?_, chunks_size_le entries maxUrl, chunks_flatten maxUrl hm entries, ?_, ?_⟩
  · rw [chunks_length, num_sitemaps_eq_ceil _ _ hm]
  · rintro rfl
    exact chunks_nil maxUrl
  · simp [sitemap_filenames, chunks_length, chunks]
  · intro i hi
    have hi' : i < num_sitemaps entries.length maxUrl := by
      rw [chunks_length] at hi
      exact hi
    unfold sitemap_filenames
    rw [List.getElem?_map, List.getElem?_range hi']
    rfl

/-- Witness for C1 at `entries = ["a", "b", "c"]`, `M = 2`. -/
theorem c1_pagination_witness :
    chunks ["a", "b", "c"] 2 = [["a", "b"], ["c"]] ∧
    (chunks (["a", "b", "c"] : List String) 2).flatten = ["a", "b", "c"] ∧
    (sitemap_filenames 3 2)[1]? = some "sitemap_2.xml" := by
  have h := c1_pagination (["a", "b", "c"] : List String) 2 (by decide)
  refine ⟨by decide, h.2.2.2.1, ?_⟩
  exact h.2.2.2.2.2 1 (by decide)

/-- C2 counterexample: `generate_sitemap_index` calls `datetime.now()`
afresh for every listed sitemap, so when the clock advances between the
two iterations the two last-modified values differ — the entries do not
all carry an identical timestamp. -/
theorem c2_counterexample :
    (generate_sitemap_index tickingClock ["sitemap_1.xml", "sitemap_2.xml"]
        "https://example.com" "sitemaps").map IndexEntry.lastmod =
      ["2024-01-01T00:00:00", "2024-01-01T00:00:01"] ∧
    ¬ (∀ e1 ∈ generate_sitemap_index tickingClock ["sitemap_1.xml", "sitemap_2.xml"]
          "https://example.com" "sitemaps",
       ∀ e2 ∈ generate_sitemap_index tickingClock ["sitemap_1.xml", "sitemap_2.xml"]
          "https://example.com" "sitemaps",
       e1.lastmod = e2.lastmod) := by
  constructor
  · decide
  · decide

/-- C2 as amended: each index entry's last-modified value is the
wall-clock reading at the moment that entry is generated; whenever the
clock reports the same value for every iteration of the loop (the run
stays within one second), every listed entry carries that identical
timestamp. -/
theorem c2_index_timestamp (clock : Nat → DateTime) (filenames : List String)
    (domain outdir : String) (t : DateTime)
    (hclock : ∀ i, i < filenames.length → clock i = t) :
    (generate_sitemap_index clock filenames domain outdir).map IndexEntry.lastmod =
      filenames.map (fun _ => isoNoMicro t) := by
  unfold generate_sitemap_index
  rw [List.map_map]
  have h1 : ∀ p ∈ filenames.enum,
      isoNoMicro (clock p.1) = isoNoMicro t := by
    intro p hp
    have hget : filenames[p.1]? = some p.2 := by
      have := List.mk_mem_enum_iff_getElem?.mp (by
        show (p.1, p.2) ∈ filenames.enum
        simpa using hp)
      simpa using this
    have hlt : p.1 < filenames.length := by
      by_contra hge
      rw [List.getElem?_eq_none (by omega)] at hget
      exact Option.noConfusion hget
    rw [hclock p.1 hlt]
  calc filenames.enum.map
        (IndexEntry.lastmod ∘ fun p =>
          { loc := indexLoc domain outdir p.2, lastmod := isoNoMicro (clock p.1) })
      = filenames.enum.map (fun p => isoNoMicro (clock p.1)) := rfl
    _ = filenames.enum.map (fun p => isoNoMicro t) := List.map_congr_left h1
    _ = (filenames.enum.map Prod.snd).map (fun _ => isoNoMicro t) := by
        rw [List.map_map]
        rfl
    _ = filenames.map (fun _ => isoNoMicro t) := by rw [List.enum_map_snd]

/-- Witness for C2 as amended, with a frozen clock and two sitemaps. -/
theorem c2_index_timestamp_witness :
    (generate_sitemap_index frozenClock ["sitemap_1.xml", "sitemap_2.xml"]
        "https://example.com" "sitemaps").map IndexEntry.lastmod =
      ["2024-01-01T00:00:00", "2024-01-01T00:00:00"] := by
  rw [c2_index_timestamp frozenClock ["sitemap_1.xml", "sitemap_2.xml"]
    "https://example.com" "sitemaps" ⟨2024, 1, 1, 0, 0, 0, 0⟩ (fun i _ => rfl)]
  decide

/-- C3: for every file whose base name starts case-insensitively with
`index`, the resolved lastModified equals the current wall-clock time at
processing (second precision), regardless of the file's content (any
embedded markers, or even a read error) and of its filesystem mtime:
the index-name override always wins and the other strategies are
skipped. -/
theorem c3_index_override (now : DateTime) (fileName : String)
    (readResult : ReadResult) (mtime : DateTime)
    (h : startsWithStr (lowerStr fileName) "index" = true) :
    resolveLastmod now fileName readResult mtime = isoNoMicro now := by
  simp [resolveLastmod, h]

/-- Witness for C3: `Index.html` with an embedded content-date marker
still resolves to the processing time, not to the marker. -/
theorem c3_index_override_witness :
    startsWithStr (lowerStr "Index.html") "index" = true ∧
    resolveLastmod ⟨2025, 1, 2, 3, 4, 5, 0⟩ "Index.html"
      (ReadResult.ok "1061 2017-06-12 by someone") ⟨2020, 5, 6, 7, 8, 9, 0⟩ =
      isoNoMicro ⟨2025, 1, 2, 3, 4, 5, 0⟩ :=
  ⟨by decide,
    c3_index_override ⟨2025, 1, 2, 3, 4, 5, 0⟩ "Index.html"
      (ReadResult.ok "1061 2017-06-12 by someone") ⟨2020, 5, 6, 7, 8, 9, 0⟩
      (by decide)⟩

/-- C4: for a file not named `index*`, when the content-date pattern
`(\d{4}-\d{2}-\d{2})\s+by` has a (first) match whose captured digits
form a valid calendar date, the resolved lastModified is that date at
midnight; in particular a file containing `1061 2017-06-12 by someone`
resolves to `2017-06-12T00:00:00`. -/
theorem c4_content_date :
    (∀ (now : DateTime) (fileName : String) (content : String) (mtime : DateTime)
        (cap : String) (dt : DateTime),
        startsWithStr (lowerStr fileName) "index" = false →
        searchContentDate content.data = some cap →
        strptimeYmd cap = some dt →
        resolveLastmod now fileName (ReadResult.ok content) mtime =
          isoNoMicro ⟨dt.year, dt.month, dt.day, 0, 0, 0, 0⟩) ∧
    resolveLastmod ⟨2025, 1, 2, 3, 4, 5, 0⟩ "post.html"
      (ReadResult.ok "1061 2017-06-12 by someone") ⟨2020, 5, 6, 7, 8, 9, 0⟩ =
      "2017-06-12T00:00:00" := by
  constructor
  · intro now fileName content mtime cap dt hname hsearch hparse
    simp [resolveLastmod, extract_date_from_content, hname, hsearch, hparse]
  · decide

/-- Witness for C4 on the spec's own example content. -/
theorem c4_content_date_witness :
    searchContentDate ("1061 2017-06-12 by someone").data = some "2017-06-12" ∧
    strptimeYmd "2017-06-12" = some ⟨2017, 6, 12, 0, 0, 0, 0⟩ ∧
    resolveLastmod ⟨2025, 1, 2, 3, 4, 5, 0⟩ "post.html"
      (ReadResult.ok "1061 2017-06-12 by someone") ⟨2020, 5, 6, 7, 8, 9, 0⟩ =
      isoNoMicro ⟨2017, 6, 12, 0, 0, 0, 0⟩ :=
  ⟨by decide, by decide,
    c4_content_date.1 ⟨2025, 1, 2, 3, 4, 5, 0⟩ "post.html"
      "1061 2017-06-12 by someone" ⟨2020, 5, 6, 7, 8, 9, 0⟩
      "2017-06-12" ⟨2017, 6, 12, 0, 0, 0, 0⟩
      (by decide) (by decide) (by decide)⟩

/-- C5: for a file not named `index*` whose content has no content-date
match, when the creation-date pattern `'creationDate'\s*=>\s*'([^']+)'`
has a (first) match whose captured value parses as
`YYYY-MM-DD HH:MM:SS`, the resolved lastModified is that timestamp at
seconds precision; in particular `'creationDate' => '2014-06-19
19:20:00'` resolves to `2014-06-19T19:20:00`. -/
theorem c5_creation_date :
    (∀ (now : DateTime) (fileName : String) (content : String) (mtime : DateTime)
        (v : String) (dt : DateTime),
        startsWithStr (lowerStr fileName) "index" = false →
        searchContentDate content.data = none →
        searchCreationDate content.data = some v →
        strptimeYmdHMS v = some dt →
        resolveLastmod now fileName (ReadResult.ok content) mtime = isoNoMicro dt) ∧
    resolveLastmod ⟨2025, 1, 2, 3, 4, 5, 0⟩ "post.html"
      (ReadResult.ok "x 'creationDate' => '2014-06-19 19:20:00' y")
      ⟨2020, 5, 6, 7, 8, 9, 0⟩ =
      "2014-06-19T19:20:00" := by
  constructor
  · intro now fileName content mtime v dt hname hnone hsearch hparse
    simp [resolveLastmod, extract_date_from_content, extract_creation_date,
      hname, hnone, hsearch, hparse]
  · decide

/-- Witness for C5 on the spec's own example content. -/
theorem c5_creation_date_witness :
    searchContentDate ("x 'creationDate' => '2014-06-19 19:20:00' y").data = none ∧
    searchCreationDate ("x 'creationDate' => '2014-06-19 19:20:00' y").data =
      some "2014-06-19 19:20:00" ∧
    strptimeYmdHMS "2014-06-19 19:20:00" = some ⟨2014, 6, 19, 19, 20, 0, 0⟩ ∧
    resolveLastmod ⟨2025, 1, 2, 3, 4, 5, 0⟩ "post.html"
      (ReadResult.ok "x 'creationDate' => '2014-06-19 19:20:00' y")
      ⟨2020, 5, 6, 7, 8, 9, 0⟩ =
      isoNoMicro ⟨2014, 6, 19, 19, 20, 0, 0⟩ :=
  ⟨by decide, by decide, by decide,
    c5_creation_date.1 ⟨2025, 1, 2, 3, 4, 5, 0⟩ "post.html"
      "x 'creationDate' => '2014-06-19 19:20:00' y" ⟨2020, 5, 6, 7, 8, 9, 0⟩
      "2014-06-19 19:20:00" ⟨2014, 6, 19, 19, 20, 0, 0⟩
      (by decide) (by decide) (by decide) (by decide)⟩

/-- C6: date resolution never fails.  A regex-matched but
calendar-invalid embedded date is treated as not found and control falls
through to the next strategy; a file read error makes both content scans
report nothing (after a printed warning) and resolution falls through to
the filesystem mtime; and a file with neither marker resolves to the
filesystem modification time with sub-second precision dropped
(`isoNoMicro` ignores the microsecond field). -/
theorem c6_resolution_never_fails :
    (∀ (content : String) (cap : String),
        searchContentDate content.data = some cap →
        strptimeYmd cap = none →
        extract_date_from_content (ReadResult.ok content) = none) ∧
    (∀ (content : String) (v : String),
        searchCreationDate content.data = some v →
        strptimeYmdHMS v = none →
        extract_creation_date (ReadResult.ok content) = none) ∧
    (∀ (now : DateTime) (fileName : String) (content : String) (mtime : DateTime)
        (cap : String),
        startsWithStr (lowerStr fileName) "index" = false →
        searchContentDate content.data = some cap →
        strptimeYmd cap = none →
        resolveLastmod now fileName (ReadResult.ok content) mtime =
          (match extract_creation_date (ReadResult.ok content) with
           | some s => s
           | none => isoNoMicro mtime)) ∧
    (∀ (now : DateTime) (fileName : String) (mtime : DateTime),
        startsWithStr (lowerStr fileName) "index" = false →
        resolveLastmod now fileName ReadResult.error mtime = isoNoMicro mtime) ∧
    (∀ (now : DateTime) (fileName : String) (content : String) (mtime : DateTime),
        startsWithStr (lowerStr fileName) "index" = false →
        searchContentDate content.data = none →
        searchCreationDate content.data = none →
        resolveLastmod now fileName (ReadResult.ok content) mtime = isoNoMicro mtime) := by
  refine ⟨?_, ?_, ?_, ?_, ?_⟩
  · intro content cap hsearch hparse
    simp [extract_date_from_content, hsearch, hparse]
  · intro content v hsearch hparse
    simp [extract_creation_date, hsearch, hparse]
  · intro now fileName content mtime cap hname hsearch hparse
    simp [resolveLastmod, extract_date_from_content, hname, hsearch, hparse,
      get_file_last_modified]
  · intro now fileName mtime hname
    simp [resolveLastmod, extract_date_from_content, extract_creation_date,
      hname, get_file_last_modified]
  · intro now fileName content mtime hname hc1 hc2
    simp [resolveLastmod, extract_date_from_content, extract_creation_date,
      hname, hc1, hc2, get_file_last_modified]

/-- Witness for C6: an invalid calendar date (February 30) falls
through, a read error falls through, and a marker-free file takes the
mtime with microseconds dropped. -/
theorem c6_resolution_never_fails_witness :
    searchContentDate ("2017-02-30 by x").data = some "2017-02-30" ∧
    strptimeYmd "2017-02-30" = none ∧
    extract_date_from_content (ReadResult.ok "2017-02-30 by x") = none ∧
    resolveLastmod ⟨2025, 1, 2, 3, 4, 5, 0⟩ "post.html" ReadResult.error
      ⟨2020, 5, 6, 7, 8, 9, 123456⟩ = isoNoMicro ⟨2020, 5, 6, 7, 8, 9, 123456⟩ ∧
    resolveLastmod ⟨2025, 1, 2, 3, 4, 5, 0⟩ "post.html" (ReadResult.ok "hello")
      ⟨2020, 5, 6, 7, 8, 9, 123456⟩ = isoNoMicro ⟨2020, 5, 6, 7, 8, 9, 123456⟩ :=
  ⟨by decide, by decide,
    c6_resolution_never_fails.1 "2017-02-30 by x" "2017-02-30" (by decide) (by decide),
    c6_resolution_never_fails.2.2.2.1 ⟨2025, 1, 2, 3, 4, 5, 0⟩ "post.html"
      ⟨2020, 5, 6, 7, 8, 9, 123456⟩ (by decide),
    c6_resolution_never_fails.2.2.2.2 ⟨2025, 1, 2, 3, 4, 5, 0⟩ "post.html" "hello"
      ⟨2020, 5, 6, 7, 8, 9, 123456⟩ (by decide) (by decide) (by decide)⟩

theorem processFile_eq_some (now : DateTime) (domain : String) (f : SFile)
    (e : UrlEntry) :
    processFile now domain f = some e ↔
      endsWithStr (lowerStr f.name) ".html" = true ∧
      occursSub (lowerStr (generate_url domain (relUrl f))) "/user/" = false ∧
      e = { loc := generate_url domain (relUrl f),
            lastmod := some (resolveLastmod now f.name f.content f.mtime) } := by
  unfold processFile
  by_cases h1 : endsWithStr (lowerStr f.name) ".html" = true
  · by_cases h2 : occursSub (lowerStr (generate_url domain (relUrl f))) "/user/" = true
    · simp [h1, h2]
    · simp [h1, h2, eq_comm]
  · simp [h1]

theorem mainEntries_mem_iff (now : DateTime) (domain : String) (tree : DirTree)
    (e : UrlEntry) :
    e ∈ mainEntries now domain tree ↔
      ∃ f, f ∈ walkFiles tree ∧
        endsWithStr (lowerStr f.name) ".html" = true ∧
        occursSub (lowerStr (generate_url domain (relUrl f))) "/user/" = false ∧
        e = { loc := generate_url domain (relUrl f),
              lastmod := some (resolveLastmod now f.name f.content f.mtime) } := by
  unfold mainEntries
  rw [List.mem_filterMap]
  constructor
  · rintro ⟨f, hf, hpf⟩
    rcases (processFile_eq_some now domain f e).mp hpf with ⟨h1, h2, h3⟩
    exact ⟨f, hf, h1, h2, h3⟩
  · rintro ⟨f, hf, h1, h2, h3⟩
    exact ⟨f, hf, (processFile_eq_some now domain f e).mpr ⟨h1, h2, h3⟩⟩

/-- C7: a file contributes a sitemap entry if and only if it is a file
reached by the recursive walk from the root whose name ends
case-insensitively in `.html` and whose full computed URL (domain plus
path) does not contain the case-insensitive substring `/user/`; the
entry built for it carries that URL and the resolved timestamp.  In
particular the site whose only page is `User/Profile.html` produces no
output at all, whatever the processing time. -/
theorem c7_walk_filter :
    (∀ (now : DateTime) (domain : String) (tree : DirTree) (e : UrlEntry),
        e ∈ mainEntries now domain tree ↔
          ∃ f, f ∈ walkFiles tree ∧
            endsWithStr (lowerStr f.name) ".html" = true ∧
            occursSub (lowerStr (generate_url domain (relUrl f))) "/user/" = false ∧
            e = { loc := generate_url domain (relUrl f),
                  lastmod := some (resolveLastmod now f.name f.content f.mtime) }) ∧
    (∀ now : DateTime, mainEntries now "https://example.com" userTree = []) :=
  ⟨fun now domain tree e => mainEntries_mem_iff now domain tree e,
   fun _ => rfl⟩

/-- C8: every emitted location equals the supplied domain with its
trailing slash removed first, then a single slash, then the file's
relative path joined with forward slashes; in particular for
`domain="https://example.com/"` and the file `a/b.html` under the scan
root, the location is `https://example.com/a/b.html` with no double
slash. -/
theorem c8_url_shape :
    (∀ (now : DateTime) (domain : String) (tree : DirTree) (e : UrlEntry),
        e ∈ mainEntries now domain tree →
        ∃ f, f ∈ walkFiles tree ∧
          e.loc = (if endsWithStr domain "/" then String.mk domain.data.dropLast
              else domain) ++ "/" ++ String.intercalate "/" (f.dirs ++ [f.name])) ∧
    (mainEntries ⟨2025, 1, 2, 3, 4, 5, 0⟩ "https://example.com/" exampleTree).map
        UrlEntry.loc = ["https://example.com/a/b.html"] := by
  constructor
  · intro now domain tree e he
    rcases (mainEntries_mem_iff now domain tree e).mp he with ⟨f, hf, _, _, rfl⟩
    exact ⟨f, hf, rfl⟩
  · decide

/-- Witness for C8: the single entry of `exampleTree` satisfies the
location shape. -/
theorem c8_url_shape_witness :
    ∃ f, f ∈ walkFiles exampleTree ∧
      ({ loc := "https://example.com/a/b.html",
         lastmod := some "2020-05-06T07:08:09" } : UrlEntry).loc =
        (if endsWithStr "https://example.com/" "/" then
            String.mk ("https://example.com/" : String).data.dropLast
          else "https://example.com/") ++ "/" ++
          String.intercalate "/" (f.dirs ++ [f.name]) :=
  c8_url_shape.1 ⟨2025, 1, 2, 3, 4, 5, 0⟩ "https://example.com/" exampleTree
    { loc := "https://example.com/a/b.html", lastmod := some "2020-05-06T07:08:09" }
    (by decide)

theorem isPrefixList_slash_dropWhile (l : List Char) :
    isPrefixList ['/'] (l.dropWhile (fun c => decide (c = '/'))) = false := by
  induction l with
  | nil => rfl
  | cons c t ih =>
      rw [List.dropWhile_cons]
      by_cases h : c = '/'
      · simpa [h] using ih
      · simp [h, isPrefixList, Ne.symm h]

theorem endsWithStr_rstripSlashes (s : String) :
    endsWithStr (rstripSlashes s) "/" = false := by
  show isPrefixList ['/']
      ((s.data.reverse.dropWhile (fun c => decide (c = '/'))).reverse.reverse) = false
  rw [List.reverse_reverse]
  exact isPrefixList_slash_dropWhile s.data.reverse

theorem startsWithStr_sitemap_filename (k : Nat) :
    startsWithStr (sitemap_filename k) "/" = false := by
  show isPrefixList ['/'] (sitemap_filename k).data = false
  unfold sitemap_filename
  rw [String.data_append, String.data_append,
    show ("sitemap_" : String).data = ['s', 'i', 't', 'e', 'm', 'a', 'p', '_'] from rfl]
  simp [isPrefixList]

/-- C9 counterexample: with output directory `/out` (an absolute output
path, accepted by the command line), the location written into the
sitemap index is `https://example.com//out/sitemap_1.xml` — a double
slash at the domain/output-directory join point, because `rstrip("/")`
removes only trailing slashes. -/
theorem c9_counterexample :
    doubleSlashAtJoins "https://example.com" "/out" "sitemap_1.xml" = true ∧
    (generate_sitemap_index frozenClock ["sitemap_1.xml"]
        "https://example.com" "/out").map IndexEntry.loc =
      ["https://example.com" ++ "//" ++ "out/sitemap_1.xml"] := by
  constructor
  · decide
  · decide

/-- C9 as amended: the two joins of an index location never double a
slash provided the output directory, after trailing slashes are
stripped, is non-empty and does not begin with a slash; the generated
chunk filenames never begin with a slash, and stripped pieces never end
with one. -/
theorem c9_no_double_slash (domain outdir : String) (k : Nat)
    (h1 : startsWithStr (rstripSlashes outdir) "/" = false)
    (h2 : (rstripSlashes outdir).data ≠ []) :
    doubleSlashAtJoins domain outdir (sitemap_filename k) = false := by
  unfold doubleSlashAtJoins
  rw [endsWithStr_rstripSlashes domain, endsWithStr_rstripSlashes outdir, h1,
    startsWithStr_sitemap_filename k]
  simp [h2]

/-- Witness for C9 as amended, at the default output directory. -/
theorem c9_no_double_slash_witness :
    startsWithStr (rstripSlashes "sitemaps") "/" = false ∧
    (rstripSlashes "sitemaps").data ≠ [] ∧
    doubleSlashAtJoins "https://example.com/" "sitemaps" (sitemap_filename 0) = false :=
  ⟨by decide, by decide,
    c9_no_double_slash "https://example.com/" "sitemaps" 0 (by decide) (by decide)⟩

theorem extract_date_iso (r : ReadResult) (s : String)
    (h : extract_date_from_content r = some s) : ∃ dt, s = isoNoMicro dt := by
  cases r with
  | error => exact absurd h (by simp [extract_date_from_content])
  | ok content =>
      simp only [extract_date_from_content] at h
      split at h
      · exact absurd h (by simp)
      · split at h
        · exact absurd h (by simp)
        · exact ⟨_, (Option.some.inj h).symm⟩

theorem extract_creation_iso (r : ReadResult) (s : String)
    (h : extract_creation_date r = some s) : ∃ dt, s = isoNoMicro dt := by
  cases r with
  | error => exact absurd h (by simp [extract_creation_date])
  | ok content =>
      simp only [extract_creation_date] at h
      split at h
      · exact absurd h (by simp)
      · split at h
        · exact absurd h (by simp)
        · exact ⟨_, (Option.some.inj h).symm⟩

theorem resolveLastmod_iso (now : DateTime) (fileName : String)
    (readResult : ReadResult) (mtime : DateTime) :
    ∃ dt, resolveLastmod now fileName readResult mtime = isoNoMicro dt := by
  unfold resolveLastmod
  by_cases h : startsWithStr (lowerStr fileName) "index" = true
  · rw [if_pos h]
    exact ⟨now, rfl⟩
  · rw [if_neg h]
    cases h1 : extract_date_from_content readResult with
    | some s =>
        rcases extract_date_iso readResult s h1 with ⟨dt, rfl⟩
        exact ⟨dt, rfl⟩
    | none =>
        cases h2 : extract_creation_date readResult with
        | some s =>
            rcases extract_creation_iso readResult s h2 with ⟨dt, rfl⟩
            exact ⟨dt, rfl⟩
        | none => exact ⟨mtime, rfl⟩

theorem isoNoMicro_ne_empty (dt : DateTime) : isoNoMicro dt ≠ "" := by
  intro h
  have h1 : ("-" : String).data = ['-'] := rfl
  have h0 : ("" : String).data = [] := rfl
  have h2 := congrArg (fun s => s.data.length) h
  simp only [isoNoMicro, String.data_append, List.length_append, h1, h0,
    List.length_cons, List.length_nil] at h2
  omega

theorem mainEntries_lastmod_ne (now : DateTime) (domain : String) (tree : DirTree)
    (e : UrlEntry) (he : e ∈ mainEntries now domain tree) :
    ∃ s, e.lastmod = some s ∧ s ≠ "" := by
  rcases (mainEntries_mem_iff now domain tree e).mp he with ⟨f, _, _, _, rfl⟩
  refine ⟨resolveLastmod now f.name f.content f.mtime, rfl, ?_⟩
  rcases resolveLastmod_iso now f.name f.content f.mtime with ⟨dt, hdt⟩
  rw [hdt]
  exact isoNoMicro_ne_empty dt

/-- C10: every URLEntry created by `main` carries a lastModified value
(the four-strategy chain always produces one, and never the empty
string), so the serializer branch that would omit the last-modified
sub-element is never taken: every url element of every emitted sitemap
chunk has its lastmod child present. -/
theorem c10_lastmod_always_present :
    (∀ (now : DateTime) (domain : String) (tree : DirTree) (e : UrlEntry),
        e ∈ mainEntries now domain tree → ∃ s, e.lastmod = some s ∧ s ≠ "") ∧
    (∀ (now : DateTime) (domain : String) (tree : DirTree) (maxUrl : Nat)
        (file : List UrlNode) (node : UrlNode),
        file ∈ (chunks (mainEntries now domain tree) maxUrl).map generate_sitemap →
        node ∈ file →
        node.lastmod.isSome = true) := by
  refine ⟨mainEntries_lastmod_ne, ?_⟩
  intro now domain tree maxUrl file node hfile hnode
  rcases List.mem_map.mp hfile with ⟨c, hc, rfl⟩
  rcases List.mem_map.mp hnode with ⟨e, he, rfl⟩
  have he' : e ∈ mainEntries now domain tree := by
    unfold chunks at hc
    rcases List.mem_map.mp hc with ⟨i, _, rfl⟩
    exact List.drop_subset _ _ (List.take_subset _ _ he)
  rcases mainEntries_lastmod_ne now domain tree e he' with ⟨s, hs, hne⟩
  simp [truthy, hs, hne]

/-- Witness for C10 on the single-entry example site. -/
theorem c10_lastmod_always_present_witness :
    ({ loc := "https://example.com/a/b.html",
       lastmod := some "2020-05-06T07:08:09" } : UrlNode).lastmod.isSome = true :=
  c10_lastmod_always_present.2 ⟨2025, 1, 2, 3, 4, 5, 0⟩ "https://example.com/"
    exampleTree 5
    [{ loc := "https://example.com/a/b.html", lastmod := some "2020-05-06T07:08:09" }]
    { loc := "https://example.com/a/b.html", lastmod := some "2020-05-06T07:08:09" }
    (by decide) (by decide)
